import Mathlib

/-
Verification of the slivka-python-client repository.

The development embeds, as executable Lean definitions, the parts of the
client that the specification talks about:

* the form-field validation engine of src/slivka_client.py (shared verbatim
  with src/slivka_client/__init__.py), one validate function per field
  variant, plus the legacy variant set of src/form_fields.py;
* Form.validate of src/slivka_client.py (one candidate value per field) and
  Form.validate of src/slivka_client/__init__.py (a list of candidate
  values per field);
* the TaskWatcher polling loop of src/slivka_client.py, with the interrupt
  event modelled as an explicit schedule;
* the status caches of src/slivka_client/job.py (time-window cache) and of
  Task.get_status in src/slivka_client.py (terminal-state cache);
* Form.submit of src/slivka_client/form.py: the file/data partition loop
  (including the CPython dictionary-iteration semantics it relies on) and
  the handling of the HTTP response status.

Python values are modelled by the inductive type Value; the Python value
None is modelled as Option.none at the candidate level.  Machine floats
are modelled as rationals: all the comparisons performed by the code are
order comparisons that agree with the rational order on the represented
values.  Raising ValidationError is modelled with Except.
-/

/-- A Python value as it can appear in a form value slot: an int, a float,
a str, a bool, or a RemoteFile reference (identified by its uuid). -/
inductive Value where
  | int (n : ℤ)
  | float (q : ℚ)
  | str (s : String)
  | bool (b : Bool)
  | file (uuid : String)
deriving DecidableEq

/-- Python isinstance(x, int) also accepts bool (bool is a subclass of
int, True behaving as 1 and False as 0).  This returns the integer seen
by the comparisons of IntegerField.validate, or none when the value is
not a Python int. -/
def Value.asInt? : Value → Option ℤ
  | .int n => some n
  | .bool b => some (if b then 1 else 0)
  | _ => none

/-- Numeric view used by Python equality: int, float and bool compare
numerically with each other. -/
def Value.toRat? : Value → Option ℚ
  | .int n => some (n : ℚ)
  | .float q => some q
  | .bool b => some (if b then 1 else 0)
  | _ => none

/-- Python equality between two values: numeric kinds compare by value,
strings compare exactly (no case folding), file references by identity of
the referenced file; kinds never compare equal across those groups. -/
def pyEq (a b : Value) : Bool :=
  match a.toRat?, b.toRat? with
  | some x, some y => x == y
  | _, _ =>
    match a, b with
    | .str s, .str t => s == t
    | .file u, .file v => u == v
    | _, _ => false

/-- Python membership test x in xs, as used by ChoiceField.validate. -/
def pyMem (v : Value) (xs : List Value) : Bool :=
  xs.any (fun c => pyEq v c)

/-- ValidationError of src/slivka_client.py: carries the field (here its
name) and the short error code.  The human-readable message is not
modelled; no claim depends on it. -/
structure ValidationError where
  field : String
  code : String
deriving DecidableEq

/-- IntegerField of src/slivka_client.py (lines 442-487). -/
structure IntegerField where
  name : String
  required : Bool
  default : Option Value
  min : Option ℤ
  max : Option ℤ
deriving DecidableEq

/-- Test for the guard "self.max is not None and value > self.max". -/
def intAboveMax (max : Option ℤ) (n : ℤ) : Bool :=
  match max with
  | some m => decide (m < n)
  | none => false

/-- Test for the guard "self.min is not None and value < self.min". -/
def intBelowMin (min : Option ℤ) (n : ℤ) : Bool :=
  match min with
  | some m => decide (n < m)
  | none => false

/-- IntegerField.validate of src/slivka_client.py lines 456-469. -/
def IntegerField.validate (f : IntegerField) (value : Option Value) :
    Except ValidationError (Option Value) :=
  let value := if value.isNone then f.default else value
  match value with
  | none => if f.required then .error ⟨f.name, "required"⟩ else .ok none
  | some v =>
    match v.asInt? with
    | none => .error ⟨f.name, "value"⟩
    | some n =>
      if intAboveMax f.max n then .error ⟨f.name, "max"⟩
      else if intBelowMin f.min n then .error ⟨f.name, "min"⟩
      else .ok (some v)

/-- DecimalField of src/slivka_client.py (lines 490-555).  The constructor
normalises a null exclusivity flag to False, so the flags are plain Bool
here. -/
structure DecimalField where
  name : String
  required : Bool
  default : Option Value
  min : Option ℚ
  max : Option ℚ
  min_exclusive : Bool
  max_exclusive : Bool
deriving DecidableEq

/-- The max-side check of DecimalField.validate: not exclusive and
value > max, or exclusive and value >= max, produce the error code max. -/
def decimalCheckMax (f : DecimalField) (q : ℚ) : Option ValidationError :=
  match f.max with
  | none => none
  | some m =>
    if f.max_exclusive = false ∧ m < q then some ⟨f.name, "max"⟩
    else if f.max_exclusive = true ∧ m ≤ q then some ⟨f.name, "max"⟩
    else none

/-- The min-side check of DecimalField.validate: not exclusive and
value < min, or exclusive and value <= min, produce the error code min. -/
def decimalCheckMin (f : DecimalField) (q : ℚ) : Option ValidationError :=
  match f.min with
  | none => none
  | some m =>
    if f.min_exclusive = false ∧ q < m then some ⟨f.name, "min"⟩
    else if f.min_exclusive = true ∧ q ≤ m then some ⟨f.name, "min"⟩
    else none

/-- DecimalField.validate of src/slivka_client.py lines 515-534: default
substitution, required check, float type check (Python bool is not a
float), then the max side followed by the min side. -/
def DecimalField.validate (f : DecimalField) (value : Option Value) :
    Except ValidationError (Option Value) :=
  let value := if value.isNone then f.default else value
  match value with
  | none => if f.required then .error ⟨f.name, "required"⟩ else .ok none
  | some (Value.float q) =>
    match decimalCheckMax f q with
    | some e => .error e
    | none =>
      match decimalCheckMin f q with
      | some e => .error e
      | none => .ok (some (Value.float q))
  | some _ => .error ⟨f.name, "value"⟩

/-- TextField of src/slivka_client.py (lines 558-603). -/
structure TextField where
  name : String
  required : Bool
  default : Option Value
  min_length : Option ℤ
  max_length : Option ℤ
deriving DecidableEq

/-- TextField.validate of src/slivka_client.py lines 572-585. -/
def TextField.validate (f : TextField) (value : Option Value) :
    Except ValidationError (Option Value) :=
  let value := if value.isNone then f.default else value
  match value with
  | none => if f.required then .error ⟨f.name, "required"⟩ else .ok none
  | some (Value.str s) =>
    if intAboveMax f.max_length (s.length : ℤ) then .error ⟨f.name, "max_length"⟩
    else if intBelowMin f.min_length (s.length : ℤ) then .error ⟨f.name, "min_length"⟩
    else .ok (some (Value.str s))
  | some _ => .error ⟨f.name, "value"⟩

/-- BooleanField of src/slivka_client.py (lines 606-635). -/
structure BooleanField where
  name : String
  required : Bool
  default : Option Value
deriving DecidableEq

/-- BooleanField.validate of src/slivka_client.py lines 610-619: once the
default is substituted, None or False count as absent (required check or
the no-value result); any other value must be a bool. -/
def BooleanField.validate (f : BooleanField) (value : Option Value) :
    Except ValidationError (Option Value) :=
  let value := if value.isNone then f.default else value
  match value with
  | none => if f.required then .error ⟨f.name, "required"⟩ else .ok none
  | some (Value.bool false) =>
    if f.required then .error ⟨f.name, "required"⟩ else .ok none
  | some (Value.bool true) => .ok (some (Value.bool true))
  | some _ => .error ⟨f.name, "value"⟩

/-- ChoiceField of src/slivka_client.py (lines 638-672). -/
structure ChoiceField where
  name : String
  required : Bool
  default : Option Value
  choices : List Value
deriving DecidableEq

/-- ChoiceField.validate of src/slivka_client.py lines 647-655.  The
Python method checks membership and then falls off the end of the
function: on success it implicitly returns None, never the candidate.
The successful result is therefore Except.ok none. -/
def ChoiceField.validate (f : ChoiceField) (value : Option Value) :
    Except ValidationError (Option Value) :=
  let value := if value.isNone then f.default else value
  match value with
  | none => if f.required then .error ⟨f.name, "required"⟩ else .ok none
  | some v =>
    if pyMem v f.choices then .ok none
    else .error ⟨f.name, "choice"⟩

/-- FileField of src/slivka_client.py (lines 675-723). -/
structure FileField where
  name : String
  required : Bool
  default : Option Value
  mime_type : Option String
  extension : Option String
  max_size : Option ℤ
deriving DecidableEq

/-- FileField.validate of src/slivka_client.py lines 695-704: the value
must be a RemoteFile and the cleaned value is its uuid string. -/
def FileField.validate (f : FileField) (value : Option Value) :
    Except ValidationError (Option Value) :=
  let value := if value.isNone then f.default else value
  match value with
  | none => if f.required then .error ⟨f.name, "required"⟩ else .ok none
  | some (Value.file u) => .ok (some (Value.str u))
  | some _ => .error ⟨f.name, "value"⟩

/-- The closed set of field variants of src/slivka_client.py (the type map
at lines 726-733). -/
inductive FormFieldA where
  | integer (f : IntegerField)
  | decimal (f : DecimalField)
  | text (f : TextField)
  | boolean (f : BooleanField)
  | choice (f : ChoiceField)
  | file (f : FileField)
deriving DecidableEq

/-- The name attribute common to all field variants. -/
def FormFieldA.name : FormFieldA → String
  | .integer f => f.name
  | .decimal f => f.name
  | .text f => f.name
  | .boolean f => f.name
  | .choice f => f.name
  | .file f => f.name

/-- The required attribute common to all field variants. -/
def FormFieldA.required : FormFieldA → Bool
  | .integer f => f.required
  | .decimal f => f.required
  | .text f => f.required
  | .boolean f => f.required
  | .choice f => f.required
  | .file f => f.required

/-- The default attribute common to all field variants. -/
def FormFieldA.default : FormFieldA → Option Value
  | .integer f => f.default
  | .decimal f => f.default
  | .text f => f.default
  | .boolean f => f.default
  | .choice f => f.default
  | .file f => f.default

/-- Virtual dispatch of FormField.validate over the variant set. -/
def FormFieldA.validate : FormFieldA → Option Value → Except ValidationError (Option Value)
  | .integer f => f.validate
  | .decimal f => f.validate
  | .text f => f.validate
  | .boolean f => f.validate
  | .choice f => f.validate
  | .file f => f.validate

/-
Legacy field variants of src/form_fields.py.  Their validate methods do
not short-circuit an absent optional value: after the required check the
code falls through to the isinstance check, so a None value of a
non-required field raises ValidationError with code value (code choice
for ChoiceField, since None is tested for membership).  Only the error
code is modelled for this generation; its ValidationError carries the
field object itself, which plays no role in the claims.
-/

/-- IntegerField of src/form_fields.py (lines 35-73): no name attribute. -/
structure LegacyIntegerField where
  required : Bool
  default : Option Value
  min : Option ℤ
  max : Option ℤ
deriving DecidableEq

/-- IntegerField.validate of src/form_fields.py lines 49-60.  Note the
order of the checks: required is tested only for a None value, and every
remaining value, None included, must pass isinstance(value, int). -/
def LegacyIntegerField.validate (f : LegacyIntegerField) (value : Option Value) :
    Except String (Option Value) :=
  let value := if value.isNone then f.default else value
  if value.isNone ∧ f.required then .error "required"
  else
    match value with
    | none => .error "value"
    | some v =>
      match v.asInt? with
      | none => .error "value"
      | some n =>
        if intAboveMax f.max n then .error "max"
        else if intBelowMin f.min n then .error "min"
        else .ok (some v)

/-
Form of src/slivka_client.py (lines 147-217).  The fields dictionary maps
each field name to its FormField (the key equals the name attribute of
the field, see Form.from_json); the values dictionary holds at most one
raw candidate value per field.  Form.validate (lines 192-203) visits
every field, validates it with the value looked up by name (None when
missing), collects each raised ValidationError, and at the end raises
FormValidationError with the collected list when it is not empty,
otherwise returns the name-to-cleaned-value mapping.  A
FormValidationError is modelled as the list of field errors it carries.
-/

/-- Lookup in the values dictionary: Python values.get(name). -/
def lookupValue (values : List (String × Value)) (name : String) : Option Value :=
  match values.find? (fun p => p.1 == name) with
  | some p => some p.2
  | none => none

/-- Extract the error of a field outcome, if any. -/
def errOf {α : Type} (r : Except ValidationError α) : Option ValidationError :=
  match r with
  | .error e => some e
  | .ok _ => none

/-- The accumulation loop shared by both generations of Form.validate:
visit the fields in order, appending the cleaned value of a successful
field to the cleaned list and the error of a failing field to the error
list. -/
def collectOutcomes {α : Type} (outcome : FormFieldA → Except ValidationError α) :
    List FormFieldA → List ValidationError × List (String × α) →
    List ValidationError × List (String × α)
  | [], acc => acc
  | f :: rest, acc =>
    match outcome f with
    | .ok v => collectOutcomes outcome rest (acc.1, acc.2 ++ [(f.name, v)])
    | .error e => collectOutcomes outcome rest (acc.1 ++ [e], acc.2)

/-- The errors of the per-field outcomes, in field order. -/
def outcomeErrors {α : Type} (outcome : FormFieldA → Except ValidationError α)
    (fields : List FormFieldA) : List ValidationError :=
  fields.filterMap (fun f => errOf (outcome f))

/-- The cleaned name-value pairs of the per-field outcomes, in field
order. -/
def outcomePairs {α : Type} (outcome : FormFieldA → Except ValidationError α)
    (fields : List FormFieldA) : List (String × α) :=
  fields.filterMap (fun f =>
    match outcome f with
    | .ok v => some (f.name, v)
    | .error _ => none)

theorem collectOutcomes_eq {α : Type} (outcome : FormFieldA → Except ValidationError α) :
    ∀ (fields : List FormFieldA) (errs : List ValidationError) (pairs : List (String × α)),
    collectOutcomes outcome fields (errs, pairs) =
      (errs ++ outcomeErrors outcome fields, pairs ++ outcomePairs outcome fields) := by
  intro fields
  induction fields with
  | nil => intro errs pairs; simp [collectOutcomes, outcomeErrors, outcomePairs]
  | cons f rest ih =>
    intro errs pairs
    cases h : outcome f with
    | ok v =>
      simp [collectOutcomes, h, ih, outcomeErrors, outcomePairs, errOf,
        List.filterMap_cons]
    | error e =>
      simp [collectOutcomes, h, ih, outcomeErrors, outcomePairs, errOf,
        List.filterMap_cons]

/-- Form of src/slivka_client.py: the field list (dictionary in field
order, keyed by field name) and the single-candidate value dictionary. -/
structure FormA where
  fields : List FormFieldA
  values : List (String × Value)

/-- Form.validate of src/slivka_client.py lines 192-203. -/
def FormA.validate (fa : FormA) :
    Except (List ValidationError) (List (String × Option Value)) :=
  let p := collectOutcomes
    (fun f => FormFieldA.validate f (lookupValue fa.values f.name)) fa.fields ([], [])
  if p.1 = [] then .ok p.2 else .error p.1

/-- The per-field errors of a FormA, each field judged independently. -/
def formErrors (fa : FormA) : List ValidationError :=
  outcomeErrors (fun f => FormFieldA.validate f (lookupValue fa.values f.name)) fa.fields

/-- The per-field cleaned values of a FormA, each field judged
independently. -/
def formCleaned (fa : FormA) : List (String × Option Value) :=
  outcomePairs (fun f => FormFieldA.validate f (lookupValue fa.values f.name)) fa.fields

/-
Form of src/slivka_client/__init__.py (lines 161-248): the generation
whose fields carry the multiple attribute and whose value map is a
defaultdict of lists, zero or more candidate values per field.
Form.validate (lines 219-236) visits every field; for a field with an
empty value list it calls validate(None) (for the required check,
discarding the result), then cleans the value list with a list
comprehension, one validate call per value.  The comprehension raises at
the first failing value, so a failing field contributes exactly one
ValidationError to the aggregate.
-/

/-- Lookup in the defaultdict of lists: a missing key yields the empty
list. -/
def lookupValues (values : List (String × List Value)) (name : String) : List Value :=
  match values.find? (fun p => p.1 == name) with
  | some p => p.2
  | none => []

/-- The list comprehension of Form.validate: validate each value in
order, aborting at the first raised ValidationError. -/
def FormFieldA.mapValidate (f : FormFieldA) : List Value → Except ValidationError (List (Option Value))
  | [] => .ok []
  | v :: rest =>
    match FormFieldA.validate f (some v) with
    | .error e => .error e
    | .ok c =>
      match FormFieldA.mapValidate f rest with
      | .error e => .error e
      | .ok cs => .ok (c :: cs)

/-- The per-field body of Form.validate of src/slivka_client/__init__.py:
an empty value list first runs validate(None) for the required check,
then the comprehension produces the cleaned list. -/
def FormFieldA.validateMany (f : FormFieldA) (vals : List Value) :
    Except ValidationError (List (Option Value)) :=
  match vals with
  | [] =>
    match FormFieldA.validate f none with
    | .error e => .error e
    | .ok _ => FormFieldA.mapValidate f []
  | _ => FormFieldA.mapValidate f vals

/-- The first value of the list rejected by the field, if any; later
invalid values are never reached by the comprehension. -/
def firstError (f : FormFieldA) : List Value → Option ValidationError
  | [] => none
  | v :: rest =>
    match FormFieldA.validate f (some v) with
    | .error e => some e
    | .ok _ => firstError f rest

/-- The cleaned output of one valid value (meaningful when the value is
valid, where validate returns ok). -/
def cleanedOf (f : FormFieldA) (v : Value) : Option Value :=
  match FormFieldA.validate f (some v) with
  | .ok c => c
  | .error _ => none

theorem mapValidate_eq (f : FormFieldA) (vals : List Value) :
    FormFieldA.mapValidate f vals =
      (match firstError f vals with
       | some e => .error e
       | none => .ok (vals.map (cleanedOf f))) := by
  induction vals with
  | nil => rfl
  | cons v rest ih =>
    cases h : FormFieldA.validate f (some v) with
    | error e => simp [FormFieldA.mapValidate, firstError, h]
    | ok c =>
      cases hf : firstError f rest with
      | some e => simp [FormFieldA.mapValidate, firstError, h, ih, hf]
      | none => simp [FormFieldA.mapValidate, firstError, cleanedOf, h, ih, hf]

/-- Form of src/slivka_client/__init__.py: field list plus the
defaultdict of candidate value lists. -/
structure FormM where
  fields : List FormFieldA
  values : List (String × List Value)

/-- Form.validate of src/slivka_client/__init__.py lines 219-236. -/
def FormM.validate (fm : FormM) :
    Except (List ValidationError) (List (String × List (Option Value))) :=
  let p := collectOutcomes
    (fun f => FormFieldA.validateMany f (lookupValues fm.values f.name)) fm.fields ([], [])
  if p.1 = [] then .ok p.2 else .error p.1

/-
TaskWatcher of src/slivka_client.py (lines 328-362).  The run method
clears the interrupt event, then loops: fetch the status of the task, set
the event when the status is ready, wait up to one second on the event
(the wait returns immediately when the event is set), break when the
event is set.  After the loop, when the last fetched status is ready, the
registered listeners are called in turn, each receiving the task; there
is no exception handling around a listener call, so a raising listener
aborts the remaining calls.

The model makes the interleaving explicit.  statuses is the trace of
successive fetch results.  intrF k is true when interrupt() has been
called by the moment of fetch number k (after the wait check of the
previous iteration); intrW k is true when interrupt() has been called by
the end of the wait of iteration k.  Both describe calls landing after
the clear() at the top of run: an interrupt raised before run starts is
erased by that clear and corresponds to the all-false schedules.  The
loop result is the last fetched status, or none when the trace is
exhausted with the loop still running (in which case no listener has been
invoked).
-/

/-- The status snapshot fetched from the service: Task.Status with its
status string and ready flag (the files url is not modelled). -/
structure TaskStatus where
  status : String
  ready : Bool
deriving DecidableEq

/-- The polling loop of TaskWatcher.run, lines 346-353: k is the fetch
counter and ev the state of the interrupt event. -/
def runLoop (intrF intrW : Nat → Bool) : Nat → Bool → List TaskStatus → Option TaskStatus
  | _, _, [] => none
  | k, ev, s :: rest =>
    let ev1 := (ev || intrF k) || s.ready
    let ev2 := ev1 || intrW k
    if ev2 then some s else runLoop intrF intrW (k + 1) ev2 rest

/-- The listener notification loop of TaskWatcher.run, lines 354-356.  A
listener is a pair of its identifier and whether its call raises; each
invoked listener receives the task of the watcher.  A raising listener
stops the iteration, so the listeners after it are not invoked. -/
def notifyAll : List (String × Bool) → List String
  | [] => []
  | l :: rest => l.1 :: (if l.2 then [] else notifyAll rest)

/-- TaskWatcher.run end to end: the identifiers of the invoked listeners,
in invocation order.  Listeners run only when the loop has exited and the
last fetched status is ready. -/
def watcherRun (ls : List (String × Bool)) (intrF intrW : Nat → Bool)
    (statuses : List TaskStatus) : List String :=
  match runLoop intrF intrW 0 false statuses with
  | none => []
  | some s => if s.ready then notifyAll ls else []

/-- The schedule of a watcher that is never interrupted. -/
def noIntr : Nat → Bool := fun _ => false

/-- The status trace QUEUED, RUNNING, RUNNING, COMPLETED of the testable
property of the specification; only the last status is ready. -/
def seqQRRC : List TaskStatus :=
  [⟨"queued", false⟩, ⟨"running", false⟩, ⟨"running", false⟩, ⟨"completed", true⟩]

theorem notifyAll_no_failure (ls : List (String × Bool))
    (h : ∀ l ∈ ls, l.2 = false) : notifyAll ls = ls.map Prod.fst := by
  induction ls with
  | nil => rfl
  | cons l rest ih =>
    have hl : l.2 = false := h l (by simp)
    simp [notifyAll, hl, ih (fun x hx => h x (by simp [hx]))]

/-
Job of src/slivka_client/job.py.  The status property (lines 37-40)
reloads from the service only when the poll timestamp plus the fixed
delay (_POLL_DELAY, five seconds) is strictly in the past, otherwise it
returns the cached status string; reload (lines 53-62) re-fetches the
status unconditionally and stamps the poll timestamp with the current
time.  There is no check of the finished classification anywhere on this
path.  Time is modelled by an explicit now parameter in seconds, the
server argument gives the status string a re-fetch would obtain, and the
third component of the result records whether a network request was
issued.
-/

/-- Cached state of a Job of src/slivka_client/job.py. -/
structure Job where
  status : String
  pollTimestamp : Nat

/-- The fixed delay window _POLL_DELAY of src/slivka_client/job.py, in
seconds. -/
def POLL_DELAY : Nat := 5

/-- A read of the status property of src/slivka_client/job.py lines
37-40, with reload of lines 53-62 inlined: returns the observed status
string, the updated Job state and whether a network fetch was issued. -/
def Job.statusRead (j : Job) (now : Nat) (server : String) : String × Job × Bool :=
  if j.pollTimestamp + POLL_DELAY < now then
    (server, ⟨server, now⟩, true)
  else (j.status, j, false)

/-- The finished classification of JobState.is_finished in
src/slivka_client/__init__.py lines 121-123, applied to the status
strings of src/slivka_client/state.py. -/
def isFinishedState (s : String) : Bool :=
  !(["pending", "accepted", "queued", "running"].contains s)

/-
Task of src/slivka_client.py (lines 268-325).  Task.get_status (lines
288-303) returns the cached status when one is cached; otherwise it
issues a request and caches the fetched status only when its ready flag
is true.  There is no time window on this path: every read before a
ready status re-fetches.
-/

/-- Cached state of a Task of src/slivka_client.py (named ClientTask here
because Task is taken by the Lean core library). -/
structure ClientTask where
  cachedStatus : Option TaskStatus

/-- Task.get_status of src/slivka_client.py lines 288-303: result,
updated Task state, and whether a network fetch was issued. -/
def ClientTask.getStatus (t : ClientTask) (server : TaskStatus) : TaskStatus × ClientTask × Bool :=
  match t.cachedStatus with
  | some s => (s, t, false)
  | none =>
    (server, ⟨if server.ready then some server else none⟩, true)

/-
Form.submit of src/slivka_client/form.py (lines 59-72).  The method
copies the value dictionary, then runs

    for key, val in data.items():
        if isinstance(val, io.IOBase):
            files[key] = data.pop(key)

The pop mutates the dictionary being iterated: the CPython dict iterator
compares the recorded size with the current size at every step and
raises RuntimeError at the first step after a size change, so the loop
survives only when no value is an io.IOBase instance.  When it survives,
a single POST request is made; a 420 response raises ValidationError
(the form-level exception of form.py, carrying one FieldError namedtuple
per entry of the errors list of the JSON body), any other status in the
400-599 range raises through response.raise_for_status, and otherwise
the uuid field of the JSON body is returned.
-/

/-- A raw submission value of src/slivka_client/form.py: binary file-like
content (an io.IOBase instance) or any other value. -/
inductive RawValue where
  | stream
  | scalar (v : Value)
deriving DecidableEq

/-- The partition loop of Form.submit: walking the dictionary entries in
order, a scalar entry is kept in data, while the first file-like entry is
moved to files and the following iterator step raises RuntimeError. -/
def partitionFiles : List (String × RawValue) →
    Except String (List (String × RawValue) × List (String × RawValue))
  | [] => .ok ([], [])
  | (k, RawValue.scalar v) :: rest =>
    match partitionFiles rest with
    | .ok (dataRest, files) => .ok ((k, RawValue.scalar v) :: dataRest, files)
    | .error e => .error e
  | (_, RawValue.stream) :: _ => .error "dictionary changed size during iteration"

/-- One entry of the errors list of a validation-rejection response body:
the JSON object with its field, message and errorCode keys. -/
structure ErrorEntry where
  field : String
  message : String
  errorCode : String
deriving DecidableEq

/-- FieldError of src/slivka_client/form.py line 78: the namedtuple with
components message, field, errorCode. -/
structure FieldError where
  message : String
  field : String
  errorCode : String
deriving DecidableEq

/-- Outcome of Form.submit: the form-level ValidationError of form.py
carrying the field error list, the generic HTTPError from
raise_for_status carrying status and body, or the RuntimeError of the
partition loop. -/
inductive SubmitError where
  | validation (field_errors : List FieldError)
  | http (status : Nat) (body : String)
  | runtime (msg : String)
deriving DecidableEq

/-- The HTTP response to the submission request, as the code reads it:
status code, the parsed errors list of the body (relevant for 420), the
uuid field of the body (relevant on success) and the raw body text. -/
structure SubmitResponse where
  status : Nat
  errorsJson : List ErrorEntry
  uuid : String
  body : String

/-- Construction of the FieldError list from the response body, line 69
of src/slivka_client/form.py: FieldError(**kw) for each entry. -/
def parseFieldErrors (es : List ErrorEntry) : List FieldError :=
  es.map (fun e => ⟨e.message, e.field, e.errorCode⟩)

/-- Response handling of Form.submit, lines 68-72 of
src/slivka_client/form.py: status 420 raises the validation failure,
every other status in the 400-599 range raises through
raise_for_status, anything else returns the uuid of the body. -/
def handleResponse (r : SubmitResponse) : Except SubmitError String :=
  if r.status = 420 then .error (.validation (parseFieldErrors r.errorsJson))
  else if 400 ≤ r.status ∧ r.status < 600 then .error (.http r.status r.body)
  else .ok r.uuid

/-- Form.submit of src/slivka_client/form.py lines 59-72 end to end: the
partition loop followed by the single POST request, here represented by
its response. -/
def formSubmit (values : List (String × RawValue)) (r : SubmitResponse) :
    Except SubmitError String :=
  match partitionFiles values with
  | .error e => .error (.runtime e)
  | .ok _ => handleResponse r

/-
Claim theorems.
-/

/-- C1: for a Choice field, validate succeeds exactly on membership of
the candidate in choices, with exact comparison (the case-folded variant
of a member is rejected) — but the successful result is None, not the
candidate: ChoiceField.validate has no return statement, so the cleaned
value promised by the specification is lost.  Evaluated on the field
with choices alpha, beta at the failing input alpha. -/
theorem choiceField_validate_eval :
    ChoiceField.validate ⟨"x", true, none, [Value.str "alpha", Value.str "beta"]⟩
      (some (Value.str "alpha")) = .ok none ∧
    ChoiceField.validate ⟨"x", true, none, [Value.str "alpha", Value.str "beta"]⟩
      (some (Value.str "gamma")) = .error ⟨"x", "choice"⟩ ∧
    ChoiceField.validate ⟨"x", true, none, [Value.str "alpha", Value.str "beta"]⟩
      (some (Value.str "ALPHA")) = .error ⟨"x", "choice"⟩ := by
  refine ⟨rfl, rfl, rfl⟩

/-- C2, counterexample: in the legacy variant set of src/form_fields.py
an absent candidate of a non-required Integer field with no default is
not short-circuited to a no-value result: it falls through to the
isinstance check and validate fails with code value. -/
theorem legacy_integerField_absent_optional_raises_value :
    LegacyIntegerField.validate ⟨false, none, none, none⟩ none = .error "value" := rfl

/-- C2, amended: in the field variants of src/slivka_client.py (and of
src/slivka_client/__init__.py), when the candidate is still absent after
default substitution, validate fails with code required when the field
is required and otherwise returns the explicit no-value result None
without raising; the legacy variants of src/form_fields.py instead fail
the type check in the non-required case. -/
theorem fields_absent_after_default_dichotomy (f : FormFieldA)
    (h : FormFieldA.default f = none) :
    FormFieldA.validate f none =
      (if FormFieldA.required f then .error ⟨FormFieldA.name f, "required"⟩
       else .ok none) := by
  cases f with
  | integer g =>
    simp only [FormFieldA.default] at h
    simp [FormFieldA.validate, IntegerField.validate, FormFieldA.required,
      FormFieldA.name, h]
  | decimal g =>
    simp only [FormFieldA.default] at h
    simp [FormFieldA.validate, DecimalField.validate, FormFieldA.required,
      FormFieldA.name, h]
  | text g =>
    simp only [FormFieldA.default] at h
    simp [FormFieldA.validate, TextField.validate, FormFieldA.required,
      FormFieldA.name, h]
  | boolean g =>
    simp only [FormFieldA.default] at h
    simp [FormFieldA.validate, BooleanField.validate, FormFieldA.required,
      FormFieldA.name, h]
  | choice g =>
    simp only [FormFieldA.default] at h
    simp [FormFieldA.validate, ChoiceField.validate, FormFieldA.required,
      FormFieldA.name, h]
  | file g =>
    simp only [FormFieldA.default] at h
    simp [FormFieldA.validate, FileField.validate, FormFieldA.required,
      FormFieldA.name, h]

/-- Witness for the amended C2 at a concrete required Integer field and a
concrete optional Text field. -/
theorem fields_absent_after_default_dichotomy_witness :
    FormFieldA.validate (FormFieldA.integer ⟨"n", true, none, none, none⟩) none
      = .error ⟨"n", "required"⟩ ∧
    FormFieldA.validate (FormFieldA.text ⟨"t", false, none, none, none⟩) none
      = .ok none := by
  constructor
  · have h := fields_absent_after_default_dichotomy
      (FormFieldA.integer ⟨"n", true, none, none, none⟩) rfl
    simpa using h
  · have h := fields_absent_after_default_dichotomy
      (FormFieldA.text ⟨"t", false, none, none, none⟩) rfl
    simpa using h

/-- C3: for a Decimal field and a float candidate equal to a declared
bound, the exclusive flag decides validity exactly as the specification
states.  A candidate equal to an exclusive max fails with code max
unconditionally (the max side is checked first); a candidate equal to an
inclusive max passes that side and, when the min side does not trigger,
validate succeeds returning the candidate; symmetrically for the min
side, whose outcome is reached when the max side does not trigger. -/
theorem decimalField_bound_equality (f : DecimalField) (q : ℚ) :
    (f.max = some q → f.max_exclusive = true →
      DecimalField.validate f (some (Value.float q)) = .error ⟨f.name, "max"⟩) ∧
    (f.max = some q → f.max_exclusive = false → decimalCheckMin f q = none →
      DecimalField.validate f (some (Value.float q)) = .ok (some (Value.float q))) ∧
    (f.min = some q → f.min_exclusive = true → decimalCheckMax f q = none →
      DecimalField.validate f (some (Value.float q)) = .error ⟨f.name, "min"⟩) ∧
    (f.min = some q → f.min_exclusive = false → decimalCheckMax f q = none →
      DecimalField.validate f (some (Value.float q)) = .ok (some (Value.float q))) := by
  refine ⟨?_, ?_, ?_, ?_⟩
  · intro hmax hexc
    simp [DecimalField.validate, decimalCheckMax, hmax, hexc]
  · intro hmax hexc hmin
    simp [DecimalField.validate, decimalCheckMax, hmax, hexc, hmin]
  · intro hmin hexc hmax
    simp [DecimalField.validate, decimalCheckMin, hmin, hexc, hmax]
  · intro hmin hexc hmax
    simp [DecimalField.validate, decimalCheckMin, hmin, hexc, hmax]

/-- Witness for C3 at the scenario of the specification: the field with
min 0 exclusive rejects 0 with code min, and the field with min 0
inclusive accepts 0. -/
theorem decimalField_bound_equality_witness :
    DecimalField.validate ⟨"x", true, none, some 0, none, true, false⟩
      (some (Value.float 0)) = .error ⟨"x", "min"⟩ ∧
    DecimalField.validate ⟨"y", true, none, some 0, none, false, false⟩
      (some (Value.float 0)) = .ok (some (Value.float 0)) := by
  constructor
  · exact (decimalField_bound_equality ⟨"x", true, none, some 0, none, true, false⟩ 0).2.2.1
      rfl rfl rfl
  · exact (decimalField_bound_equality ⟨"y", true, none, some 0, none, false, false⟩ 0).2.2.2
      rfl rfl rfl

/-- C4: Form.validate of src/slivka_client.py equals the declarative
per-field description: every declared field is judged independently with
its own looked-up value (so one failure cannot mask another field), the
full list of per-field errors is raised as a FormValidationError exactly
when at least one field failed, and otherwise the name-to-cleaned-value
mapping of all fields is returned. -/
theorem form_validate_aggregation (fa : FormA) :
    FormA.validate fa =
      (if formErrors fa = [] then .ok (formCleaned fa) else .error (formErrors fa)) := by
  unfold FormA.validate formErrors formCleaned
  rw [collectOutcomes_eq]
  simp

/-- C5, counterexample: a multiple-valued Integer field with max 10
holding the two invalid candidates 11 and 12 contributes exactly one
ValidationError (for the first invalid entry) to the aggregated
FormValidationError, not one per invalid entry: the cleaning
comprehension raises at the first failing value. -/
theorem form_multiple_two_invalid_single_error :
    FormM.validate ⟨[FormFieldA.integer ⟨"n", true, none, none, some 10⟩],
        [("n", [Value.int 11, Value.int 12])]⟩
      = .error [⟨"n", "max"⟩] := rfl

/-- C5, amended: with multiple true, validation is applied per value in
order, stopping at the first invalid value of the field.  When the value
list is non-empty, the outcome is the error of the first invalid value
if one exists, and otherwise the sequence of per-value cleaned outputs,
whose length equals the number of (all valid) input values; a field with
an empty value list first passes the required check on None and then
cleans to the empty sequence. -/
theorem multiple_per_value_validation (f : FormFieldA) (vals : List Value) :
    (vals ≠ [] →
      FormFieldA.validateMany f vals =
        (match firstError f vals with
         | some e => .error e
         | none => .ok (vals.map (cleanedOf f)))) ∧
    (vals ≠ [] → firstError f vals = none →
      FormFieldA.validateMany f vals = .ok (vals.map (cleanedOf f)) ∧
      (vals.map (cleanedOf f)).length = vals.length) ∧
    ((FormFieldA.validate f none).isOk = true →
      FormFieldA.validateMany f [] = .ok []) := by
  refine ⟨?_, ?_, ?_⟩
  · intro hne
    cases vals with
    | nil => exact absurd rfl hne
    | cons v rest =>
      simp only [FormFieldA.validateMany]
      exact mapValidate_eq f (v :: rest)
  · intro hne hfe
    cases vals with
    | nil => exact absurd rfl hne
    | cons v rest =>
      constructor
      · simp only [FormFieldA.validateMany]
        rw [mapValidate_eq f (v :: rest), hfe]
      · simp
  · intro hok
    cases h : FormFieldA.validate f none with
    | error e => rw [h] at hok; simp [Except.isOk, Except.toBool] at hok
    | ok c => simp [FormFieldA.validateMany, h, FormFieldA.mapValidate]

/-- Witness for the amended C5: the Integer field with max 10 cleans the
two valid values 3 and 4 to a sequence of length two, and an optional
field with an empty value list cleans to the empty sequence. -/
theorem multiple_per_value_validation_witness :
    FormFieldA.validateMany (FormFieldA.integer ⟨"n", true, none, none, some 10⟩)
      [Value.int 3, Value.int 4] = .ok [some (Value.int 3), some (Value.int 4)] ∧
    FormFieldA.validateMany (FormFieldA.integer ⟨"m", false, none, none, none⟩) [] = .ok [] := by
  constructor
  · have h := multiple_per_value_validation
      (FormFieldA.integer ⟨"n", true, none, none, some 10⟩) [Value.int 3, Value.int 4]
    have h2 := (h.2.1 (by simp) rfl).1
    simpa using h2
  · have h := multiple_per_value_validation
      (FormFieldA.integer ⟨"m", false, none, none, none⟩) []
    exact h.2.2 rfl

/-- C6, counterexample: a watcher over the trace QUEUED, RUNNING,
RUNNING, COMPLETED with two listeners, the first of which raises: only
the first listener is invoked, the failure prevents the second from
running (TaskWatcher.run has no exception handling around the listener
calls). -/
theorem watcher_listener_failure_stops_rest :
    watcherRun [("a", true), ("b", false)] noIntr noIntr seqQRRC = ["a"] := rfl

/-- C6, amended: over the trace QUEUED, RUNNING, RUNNING, COMPLETED the
loop exits exactly at COMPLETED, so listeners run only after the
finished status is observed; the listeners are invoked sequentially and
each is invoked exactly once when none of them raises, while a raising
listener prevents the listeners after it from running; and when the
interrupt is observed at a wait boundary before COMPLETED has been
fetched, no listener is invoked. -/
theorem watcher_qrrc_behaviour (ls : List (String × Bool)) (intrW : Nat → Bool) :
    (runLoop noIntr noIntr 0 false seqQRRC = some ⟨"completed", true⟩) ∧
    (watcherRun ls noIntr noIntr seqQRRC = notifyAll ls) ∧
    ((∀ l ∈ ls, l.2 = false) → watcherRun ls noIntr noIntr seqQRRC = ls.map Prod.fst) ∧
    ((intrW 0 || intrW 1 || intrW 2) = true → watcherRun ls noIntr intrW seqQRRC = []) := by
  refine ⟨rfl, rfl, ?_, ?_⟩
  · intro h
    have : watcherRun ls noIntr noIntr seqQRRC = notifyAll ls := rfl
    rw [this, notifyAll_no_failure ls h]
  · intro h
    cases h0 : intrW 0 with
    | true => simp [watcherRun, runLoop, seqQRRC, noIntr, h0]
    | false =>
      cases h1 : intrW 1 with
      | true => simp [watcherRun, runLoop, seqQRRC, noIntr, h0, h1]
      | false =>
        cases h2 : intrW 2 with
        | true => simp [watcherRun, runLoop, seqQRRC, noIntr, h0, h1, h2]
        | false => rw [h0, h1, h2] at h; simp at h

/-- Witness for the amended C6: two well-behaved listeners are both
invoked exactly once over the QUEUED, RUNNING, RUNNING, COMPLETED trace,
and an interrupt observed during the second wait leaves both uninvoked. -/
theorem watcher_qrrc_behaviour_witness :
    watcherRun [("a", false), ("b", false)] noIntr noIntr seqQRRC = ["a", "b"] ∧
    watcherRun [("a", false), ("b", false)] noIntr (fun k => k == 1) seqQRRC = [] := by
  have h := watcher_qrrc_behaviour [("a", false), ("b", false)] (fun k => k == 1)
  constructor
  · simpa using h.2.2.1 (by decide)
  · exact h.2.2.2 (by decide)

/-- C10: when the interrupt has been raised by the time of the first
fetch of the loop body (after the clear at the top of run), the watcher
still performs exactly this one further status fetch and exits with that
status, and the completion listeners are invoked despite the interrupt
exactly when that final fetched status is ready. -/
theorem interrupt_one_more_fetch (ls : List (String × Bool)) (intrF intrW : Nat → Bool)
    (s : TaskStatus) (rest : List TaskStatus) (h : intrF 0 = true) :
    runLoop intrF intrW 0 false (s :: rest) = some s ∧
    watcherRun ls intrF intrW (s :: rest) = (if s.ready then notifyAll ls else []) := by
  have h1 : runLoop intrF intrW 0 false (s :: rest) = some s := by
    simp [runLoop, h]
  exact ⟨h1, by simp [watcherRun, h1]⟩

/-- Witness for C10: interrupt raised before the first fetch, trace with
the single ready status COMPLETED: the fetch happens and the listener is
invoked. -/
theorem interrupt_one_more_fetch_witness :
    runLoop (fun _ => true) noIntr 0 false [⟨"completed", true⟩] = some ⟨"completed", true⟩ ∧
    watcherRun [("a", false)] (fun _ => true) noIntr [⟨"completed", true⟩] = ["a"] := by
  have h := interrupt_one_more_fetch [("a", false)] (fun _ => true) noIntr
    ⟨"completed", true⟩ [] rfl
  exact ⟨h.1, by simpa [notifyAll] using h.2⟩

/-- C7, counterexample: a Job of src/slivka_client/job.py whose cached
status is the finished status completed still issues a network re-fetch
on a status read once the delay window has expired (poll timestamp 0,
now 6, window 5 seconds): the status property consults only the
timestamp, never the finished classification. -/
theorem job_refetch_after_finished :
    isFinishedState "completed" = true ∧
    (Job.statusRead ⟨"completed", 0⟩ 6 "completed").2.2 = true := ⟨rfl, rfl⟩

/-- C7, amended: the two cache policies live in different classes.  A
Job of src/slivka_client/job.py serves a status read from the local
cache, with no network request, exactly when the read falls within the
fixed delay window since the last fetch, and re-fetches once the window
has expired, finished or not.  A Task of src/slivka_client.py serves a
read from the cache with no network request once a ready status has
been cached, and a read that fetched a ready status caches it so that
every subsequent read is cache-only; before that, every read issues a
fetch. -/
theorem status_cache_policies (j : Job) (now : Nat) (server : String)
    (t : ClientTask) (s : TaskStatus) (srv srv2 : TaskStatus) :
    (¬ j.pollTimestamp + POLL_DELAY < now →
      Job.statusRead j now server = (j.status, j, false)) ∧
    (j.pollTimestamp + POLL_DELAY < now →
      (Job.statusRead j now server).2.2 = true) ∧
    (t.cachedStatus = some s → ClientTask.getStatus t srv = (s, t, false)) ∧
    (t.cachedStatus = none → (ClientTask.getStatus t srv).2.2 = true) ∧
    (srv.ready = true →
      ClientTask.getStatus ((ClientTask.getStatus ⟨none⟩ srv).2.1) srv2
        = (srv, (ClientTask.getStatus ⟨none⟩ srv).2.1, false)) := by
  refine ⟨?_, ?_, ?_, ?_, ?_⟩
  · intro h; simp [Job.statusRead, h]
  · intro h; simp [Job.statusRead, h]
  · intro h; simp [ClientTask.getStatus, h]
  · intro h; simp [ClientTask.getStatus, h]
  · intro h; simp [ClientTask.getStatus, h]

/-- Witness for the amended C7 at concrete states: a read three seconds
after the fetch is cache-only, a read six seconds after it fetches, a
Task with a cached ready status reads without fetching, and a Task read
that fetched a ready status leaves the next read cache-only. -/
theorem status_cache_policies_witness :
    Job.statusRead ⟨"running", 0⟩ 3 "completed" = ("running", ⟨"running", 0⟩, false) ∧
    (Job.statusRead ⟨"running", 0⟩ 6 "completed").2.2 = true ∧
    ClientTask.getStatus ⟨some ⟨"completed", true⟩⟩ ⟨"completed", true⟩
      = (⟨"completed", true⟩, ⟨some ⟨"completed", true⟩⟩, false) ∧
    ClientTask.getStatus ((ClientTask.getStatus ⟨none⟩ ⟨"completed", true⟩).2.1)
        ⟨"unknown", false⟩
      = (⟨"completed", true⟩, (ClientTask.getStatus ⟨none⟩ ⟨"completed", true⟩).2.1, false) := by
  have h1 := status_cache_policies ⟨"running", 0⟩ 3 "completed"
    ⟨some ⟨"completed", true⟩⟩ ⟨"completed", true⟩ ⟨"completed", true⟩ ⟨"unknown", false⟩
  have h2 := status_cache_policies ⟨"running", 0⟩ 6 "completed"
    ⟨none⟩ ⟨"completed", true⟩ ⟨"completed", true⟩ ⟨"unknown", false⟩
  exact ⟨h1.1 (by decide), h2.2.1 (by decide), h1.2.2.1 rfl, h1.2.2.2.2 rfl⟩

/-- C8: evaluated at the failing input, a value map containing one
binary file-like value makes Form.submit of src/slivka_client/form.py
raise RuntimeError locally in the partition loop (data.pop inside the
iteration over data.items), before any request is performed — the
submission does not complete; a value map with no file-like value
survives the loop with every value kept as an ordinary form field and,
on a success response, yields the job identifier of the body. -/
theorem submit_file_partition_runtime_error :
    formSubmit [("seq", RawValue.stream)] ⟨202, [], "J1", ""⟩
      = .error (.runtime "dictionary changed size during iteration") ∧
    partitionFiles [("n", RawValue.scalar (Value.int 5))]
      = .ok ([("n", RawValue.scalar (Value.int 5))], []) ∧
    formSubmit [("n", RawValue.scalar (Value.int 5))] ⟨202, [], "J1", ""⟩ = .ok "J1" := by
  refine ⟨rfl, rfl, rfl⟩

/-- C9: the distinguished validation-rejected status 420 raises the
form-level validation failure carrying exactly one FieldError per entry
of the errors list of the response body, each preserving the field,
message, and errorCode of its entry; every other non-success status (the
400-599 range of raise_for_status) raises the generic remote-call
failure carrying the status code and body, and never the validation
failure. -/
theorem submit_response_translation (r : SubmitResponse) :
    (r.status = 420 →
      handleResponse r = .error (.validation (parseFieldErrors r.errorsJson)) ∧
      (parseFieldErrors r.errorsJson).length = r.errorsJson.length ∧
      (∀ fe, fe ∈ parseFieldErrors r.errorsJson ↔
        ∃ e ∈ r.errorsJson, fe = ⟨e.message, e.field, e.errorCode⟩)) ∧
    (r.status ≠ 420 → 400 ≤ r.status → r.status < 600 →
      handleResponse r = .error (.http r.status r.body) ∧
      ∀ es, handleResponse r ≠ .error (.validation es)) := by
  constructor
  · intro h
    refine ⟨by simp [handleResponse, h], by simp [parseFieldErrors], ?_⟩
    intro fe
    simp [parseFieldErrors, eq_comm]
  · intro h h4 h6
    have hh : handleResponse r = .error (.http r.status r.body) := by
      simp [handleResponse, h, h4, h6]
    exact ⟨hh, fun es => by simp [hh]⟩

/-- Witness for C9: the rejection payload of the specification scenario
(field x, message bad, errorCode value) and a generic 500 failure. -/
theorem submit_response_translation_witness :
    handleResponse ⟨420, [⟨"x", "bad", "value"⟩], "", ""⟩
      = .error (.validation [⟨"bad", "x", "value"⟩]) ∧
    handleResponse ⟨500, [], "", "oops"⟩ = .error (.http 500 "oops") := by
  have h1 := submit_response_translation ⟨420, [⟨"x", "bad", "value"⟩], "", ""⟩
  have h2 := submit_response_translation ⟨500, [], "", "oops"⟩
  constructor
  · simpa [parseFieldErrors] using (h1.1 rfl).1
  · exact (h2.2 (by decide) (by decide) (by decide)).1
